import Mathlib

/-!
Verification development for the teggle-omnibus runtime:
the zip-archive module resolver, the cortex config accessor and the
engine orchestrator. Each Rust function relevant to the analysed
properties is embedded as an executable Lean definition; machine-level
concerns (the rhai interpreter, zip decoding) appear only through their
interface, as deterministic oracles.
-/

namespace Omnibus

/-- The single-quote character, used to build error-message strings the
way the Rust source formats them. -/
def squote : String := String.mk [Char.ofNat 39]

/-- Association-list lookup keyed by strings. `rhai::Map`, the resolver
module cache (`BTreeMap<PathBuf, Shared<Module>>`) and the config memo
table (`BTreeMap<String, Dynamic>`) are all modelled as association
lists; insertion is modelled as prepending, which shadows older entries
exactly as `BTreeMap::insert` replaces them. -/
def assocFind {α : Type} : List (String × α) → String → Option α
  | [], _ => none
  | (k2, v) :: rest, k => if k2 == k then some v else assocFind rest k

/-- A closed model of `rhai::Dynamic` restricted to the value shapes the
config subsystem stores: string, integer, boolean, array, nested map and
unit (`Dynamic::UNIT`, the "no value" result). -/
inductive DValue where
  | unit
  | str (s : String)
  | int (n : Int)
  | bool (b : Bool)
  | array (xs : List DValue)
  | map (m : List (String × DValue))

/-- A `rhai::Map`: string keys to dynamic values. -/
abbrev RMap : Type := List (String × DValue)

/-- Does a dynamic value hold a string (the Rust check
`val.is::<String>()`)? -/
def DValue.isStr : DValue → Bool
  | .str _ => true
  | _ => false

/-- Model of `Config` (zip/src/config.rs) and of `CortexConfig`
(core/src/cortex/config.rs): the two Rust types have textually identical
`data`/`cache` fields, `get`, `get_str` and `_get` bodies, so they are
embedded once. The `cache` is the interior-mutability memo table,
threaded explicitly. -/
structure ConfigM where
  data : RMap
  cache : List (String × DValue)

/-- `Config::new` / `CortexConfig::new`. -/
def ConfigM.new (m : RMap) : ConfigM := { data := m, cache := [] }

/-- The walk performed by the `for ki in 1..keys.len()` loop of `_get`:
for each remaining segment the current value must be a map
(`cur.is::<Map>()`), the segment is looked up in it, and any failure
returns `Dynamic::UNIT` immediately. -/
def ConfigM.getWalk : DValue → List String → DValue
  | cur, [] => cur
  | cur, k :: rest =>
    match cur with
    | .map m =>
      match assocFind m k with
      | none => DValue.unit
      | some v => ConfigM.getWalk v rest
    | _ => DValue.unit

/-- Split a character list on a separator character, keeping empty
groups, as `str::split` does: the empty list gives one empty group. -/
def splitOnChar (c : Char) : List Char → List (List Char)
  | [] => [[]]
  | x :: xs =>
    let r := splitOnChar c xs
    if x == c then [] :: r
    else
      match r with
      | [] => [[x]]
      | g :: gs => (x :: g) :: gs

/-- `key.split(".")` as the Rust source performs it (`str::split` keeps
empty segments). -/
def splitDots (s : String) : List String :=
  (splitOnChar (Char.ofNat 46) s.toList).map String.mk

/-- `Config::_get` / `CortexConfig::_get`: empty key yields
`Dynamic::UNIT`; otherwise the key is split on `.`, the first segment is
resolved against the root `data` map, and the remaining segments are
resolved by `getWalk`. (The underscore-led Rust name is not a legal Lean
declaration name, hence `getRaw`.) -/
def ConfigM.getRaw (c : ConfigM) (key : String) : DValue :=
  if key.isEmpty then DValue.unit
  else
    match splitDots key with
    | [] => DValue.unit
    | k0 :: rest =>
      match assocFind c.data k0 with
      | none => DValue.unit
      | some cur => ConfigM.getWalk cur rest

/-- `Config::get` / `CortexConfig::get`: memoized lookup. Returns the
value, the config with its (possibly extended) memo table, and a flag
recording whether `_get` was invoked — the flag is the instrumentation
for "no recomputation", it corresponds to reaching the line
`let val = self._get(key)` in the source. -/
def ConfigM.get (c : ConfigM) (key : String) : DValue × ConfigM × Bool :=
  match assocFind c.cache key with
  | some value => (value, c, false)
  | none =>
    let val := c.getRaw key
    (val, { c with cache := (key, val) :: c.cache }, true)

/-- `Config::get_str` / `CortexConfig::get_str`: `get`, then `None`
unless the value is a string. -/
def ConfigM.get_str (c : ConfigM) (key : String) : Option String × ConfigM :=
  match c.get key with
  | (.str s, c2, _) => (some s, c2)
  | (_, c2, _) => (none, c2)

/-- Model of `cosmwasm_std::StdError` restricted to the one variant the
engine and config code construct. -/
inductive StdErr where
  | genericErr (msg : String)

/-- The message `format!("cortex config missing key '{}'", vk)`. -/
def missingKeyMsg (vk : String) : String :=
  "cortex config missing key " ++ squote ++ vk ++ squote

/-- `CFG_KEY_CORTEX_NAME` / `CFG_KEY_CORTEX_VERSION` /`REQ_STR_KEYS`. -/
def REQ_STR_KEYS : List String := ["cortex.name", "cortex.version"]

/-- The `for vk in REQ_STR_KEYS` loop body of `CortexConfig::validate`:
`get_str` each key in order, returning the missing-key error at the
first key whose value is not a string. -/
def validateKeys : ConfigM → List String → Except StdErr ConfigM
  | c, [] => Except.ok c
  | c, vk :: rest =>
    match c.get_str vk with
    | (none, c2) =>
      let _ := c2
      Except.error (StdErr.genericErr (missingKeyMsg vk))
    | (some _, c2) => validateKeys c2 rest

/-- `CortexConfig::validate`. -/
def CortexConfig.validate (c : ConfigM) : Except StdErr ConfigM :=
  validateKeys c REQ_STR_KEYS

/-- Is an `Except` result `Ok`? -/
def exceptOk {ε α : Type} : Except ε α → Bool
  | Except.ok _ => true
  | Except.error _ => false

/-- Modelled from the spec: the clean dot-path walk the specification
describes — each segment after the first resolves through a nested map,
`none` for any missing key or non-map intermediate, the stored value for
a complete walk. Used only to be compared with `ConfigM.getRaw`. -/
def specDotLookup : DValue → List String → Option DValue
  | v, [] => some v
  | v, k :: rest =>
    match v with
    | .map m => (assocFind m k).bind (fun v2 => specDotLookup v2 rest)
    | _ => none

/-- Modelled from the spec: the whole dot-path contract — empty path is
"no value", otherwise the dot-separated segments resolve through nested
maps starting at the root document, with any missing key or non-map
intermediate giving "no value". The empty-segment-list branch mirrors
the defensive branch of the source (a split never returns no groups). -/
def specGet (c : ConfigM) (key : String) : Option DValue :=
  if key.isEmpty then none
  else
    match splitDots key with
    | [] => none
    | ks => specDotLookup (DValue.map c.data) ks

/-! ## Path model

`PathBuf` values are modelled as strings over a Unix-style separator.
The model covers the paths the resolver actually builds: zip member
names, i.e. components that are plain names (no trailing separators, no
`.`/`..` components). -/

/-- Split a character list at the LAST occurrence of `c`:
`some (before, after)`, or `none` when `c` does not occur. -/
def splitAtLast (c : Char) : List Char → Option (List Char × List Char)
  | [] => none
  | x :: xs =>
    match splitAtLast c xs with
    | some (b, a) => some (x :: b, a)
    | none => if x = c then some ([], xs) else none

/-- `PathBuf::set_extension` restricted to the final file-name
component: the extension is the portion after the last `.`, except that
a name whose only `.` is its first character has no extension; the stem
is kept and the new extension appended. An empty name (no file name) is
left unchanged, as `set_extension` then returns `false` without
modifying the path. -/
def setExtName (name ext : String) : String :=
  if name.isEmpty then name
  else
    let stem :=
      match splitAtLast (Char.ofNat 46) name.toList with
      | none => name
      | some (before, _) => if before.isEmpty then name else String.mk before
    if ext.isEmpty then stem else stem ++ "." ++ ext

/-- `PathBuf::set_extension` on a full path: the extension change
applies to the component after the last separator. -/
def setExtension (path ext : String) : String :=
  match splitAtLast (Char.ofNat 47) path.toList with
  | some (dir, name) => String.mk dir ++ "/" ++ setExtName (String.mk name) ext
  | none => setExtName path ext

/-- `Path::is_relative` (Unix): the path does not start with `/`. -/
def isRelative (p : String) : Bool :=
  match p.toList with
  | [] => true
  | c :: _ => !(c == Char.ofNat 47)

/-- Does the path end with the separator? -/
def endsWithSlash (p : String) : Bool :=
  match p.toList.getLast? with
  | some c => c == Char.ofNat 47
  | none => false

/-- `PathBuf::push`: an absolute argument replaces the path, a relative
one is appended with a separator (none added when the base is empty). -/
def pathPush (base p : String) : String :=
  if ¬ isRelative p then p
  else if base.isEmpty then p
  else if endsWithSlash base then base ++ p
  else base ++ "/" ++ p

/-- `Path::parent().map(|p| p.to_string_lossy())`: drop the final
component; `some ""` for a bare file name, `none` for the empty path or
the root. -/
def parentDir (p : String) : Option String :=
  if p.isEmpty then none
  else if p == "/" then none
  else
    match splitAtLast (Char.ofNat 47) p.toList with
    | some (dir, _) => some (if dir.isEmpty then "/" else String.mk dir)
    | none => some ""

/-! ## Archive module resolver (zip/src/resolver.rs)

The external rhai engine appears as a pair of deterministic oracles:
for a fixed engine, `compile_with_scope` against a clone of the fixed
resolver scope, and `Module::eval_ast_as_new` on the resulting AST with
a fresh empty scope, succeed or fail as a function of the source text
alone. `Shared<Module>` identity is modelled by a freshness counter:
every successful compile+evaluate allocates a new instance id, and
returning a cached `module.clone()` of an `Rc` returns the same id.
Archive accesses (`zip.by_name`) are counted for instrumentation. -/

/-- A stored archive file: readable UTF-8 text, or a blob on which
`read_to_string` fails. -/
inductive FileEntry where
  | readable (content : String)
  | unreadable

/-- An in-memory `ZipArchive`: member names to entries. -/
structure ZipArchiveM where
  files : List (String × FileEntry)

/-- The immutable configuration fields of `ZipModuleResolver`. The
interior-mutability `cache` cell is carried separately in `RState`. -/
structure ZipModuleResolverM where
  zip : Option ZipArchiveM
  basePath : Option String
  extension : String
  cache_enabled : Bool

/-- The mutable resolver state: the module cache (resolved path to
module instance id), the next fresh module instance id, and the count
of archive file accesses performed so far. -/
structure RState where
  cache : List (String × Nat)
  fresh : Nat
  reads : Nat

/-- `ResolverError` (zip/src/result.rs), payloads elided. -/
inductive ResolverErr where
  | invalidZip
  | fileNotFound
  | fileReadFailed
  | noAstProduced
  | jsonParseFailed
  | sourceCompileFailed
  | parseError
  | evalError
  | notReady

/-- The `EvalAltResult` variants `impl_resolve` and `resolve_ast`
construct. -/
inductive EvalAltErr where
  | errorModuleNotFound (path : String)
  | errorInModuleCompile (path : String)
  | errorInModuleEval (path : String)

/-- The external rhai engine, as deterministic oracles over source
text: does the source compile, and does evaluating the compiled unit
into a module succeed. -/
structure ExtEngine where
  compileOk : String → Bool
  evalOk : String → Bool

/-- `ZipModuleResolver::get_file_path`: a relative input is joined to
the base path, else to the requesting source path, else taken from the
archive root; then the custom extension, or the configured one, is
forced onto the result. -/
def ZipModuleResolverM.get_file_path (r : ZipModuleResolverM) (path : String)
    (source_path : Option String) (custom_extension : Option String) : String :=
  let file_path :=
    if isRelative path then
      pathPush ((r.basePath.or source_path).getD "") path
    else path
  match custom_extension with
  | some e => setExtension file_path e
  | none => setExtension file_path r.extension

/-- `ZipModuleResolver::get_file`: `NotReady` when no archive is
loaded; otherwise one archive access (counted), yielding the text,
`FileNotFound`, or `FileReadFailed`. -/
def ZipModuleResolverM.get_file (r : ZipModuleResolverM) (st : RState)
    (file_path : String) : Except ResolverErr String × RState :=
  match r.zip with
  | none => (Except.error ResolverErr.notReady, st)
  | some z =>
    let st2 := { st with reads := st.reads + 1 }
    match assocFind z.files file_path with
    | none => (Except.error ResolverErr.fileNotFound, st2)
    | some (FileEntry.readable s) => (Except.ok s, st2)
    | some FileEntry.unreadable => (Except.error ResolverErr.fileReadFailed, st2)

/-- The resolved file path `impl_resolve` computes: the requesting
source is the global state source, else the `source` argument, and its
parent directory seeds relative resolution. -/
def ZipModuleResolverM.resolvedPath (r : ZipModuleResolverM)
    (globalSource source : Option String) (path : String) : String :=
  let source_path := (globalSource.or source).bind parentDir
  r.get_file_path path source_path none

/-- The cache-miss body of `ZipModuleResolver::impl_resolve`: archive
read, compile against a clone of the shared scope, evaluate into a
fresh module, and insert into the cache (only when caching is enabled)
before returning. -/
def ZipModuleResolverM.resolveMiss (E : ExtEngine) (r : ZipModuleResolverM)
    (st : RState) (path file_path : String) : Except EvalAltErr Nat × RState :=
  match r.get_file st file_path with
  | (Except.error _, st2) => (Except.error (EvalAltErr.errorModuleNotFound path), st2)
  | (Except.ok script, st2) =>
    if E.compileOk script then
      if E.evalOk script then
        let m := st2.fresh
        let st3 := { st2 with fresh := st2.fresh + 1 }
        let st4 :=
          if r.cache_enabled then { st3 with cache := (file_path, m) :: st3.cache }
          else st3
        (Except.ok m, st4)
      else (Except.error (EvalAltErr.errorInModuleEval path), st2)
    else (Except.error (EvalAltErr.errorInModuleCompile path), st2)

/-- `ZipModuleResolver::impl_resolve`: cache check (only when caching
is enabled, returning the cached instance verbatim without touching the
archive), then the cache-miss body. -/
def ZipModuleResolverM.impl_resolve (E : ExtEngine) (r : ZipModuleResolverM)
    (st : RState) (globalSource source : Option String) (path : String) :
    Except EvalAltErr Nat × RState :=
  let file_path := r.resolvedPath globalSource source path
  let cached := if r.cache_enabled then assocFind st.cache file_path else none
  match cached with
  | some m => (Except.ok m, st)
  | none => r.resolveMiss E st path file_path

/-- `ZipModuleResolver::clear_cache`: empty the module cache, touching
nothing else. -/
def RState.clear_cache (st : RState) : RState := { st with cache := [] }

/-- Does the loaded archive contain this member? False when no archive
is loaded. -/
def ZipModuleResolverM.archiveHas (r : ZipModuleResolverM) (file_path : String) : Bool :=
  match r.zip with
  | none => false
  | some z => (assocFind z.files file_path).isSome

/-- `ZipModuleResolver::resolve_ast`: bypasses the cache, reads and
compiles on every call, and calls `.ok().unwrap()` on the file lookup —
`none` models the panic taken when `get_file` returns an error. The AST
is modelled by its source text. -/
def ZipModuleResolverM.resolve_ast (E : ExtEngine) (r : ZipModuleResolverM)
    (st : RState) (source_path : Option String) (path : String) :
    Option (Except EvalAltErr String × RState) :=
  let file_path := r.get_file_path path source_path none
  match r.get_file st file_path with
  | (Except.error _, _) => none
  | (Except.ok script, st2) =>
    some (if E.compileOk script then (Except.ok script, st2)
          else (Except.error (EvalAltErr.errorInModuleCompile path), st2))

/-! ## Engine orchestrator (core/src/engine.rs) -/

/-- The merged program library: the set of script functions exposed by
`ast.shared_lib()`, as (name, arity) pairs. -/
abbrev ProgramLib : Type := List (String × Nat)

/-- The external interpreter running a script function that the library
does define: its success or script-raised error, as an oracle. -/
structure ScriptRT where
  runFn : String → Except String Unit

/-- The message of `EvalAltResult::ErrorFunctionNotFound`. -/
def errFnNotFound (name : String) : String :=
  "ErrorFunctionNotFound: " ++ name

/-- `Engine::call_fn_raw_raw` on the merged program: an error when no
script function of this name and arity exists, otherwise the oracle
outcome of running it. -/
def call_fn_raw_raw (rt : ScriptRT) (lib : ProgramLib) (name : String)
    (argc : Nat) : Except String Unit :=
  if lib.contains (name, argc) then rt.runFn name
  else Except.error (errFnNotFound name)

/-- The engine fields that `loaded_core` inspects; the merged AST is
carried as its script-function library. -/
structure OmnibusEngineM where
  rh_resolver : Bool
  rh_ast : Option ProgramLib
  rh_caches : Bool
  rh_global : Bool

/-- `OmnibusEngine::loaded_core`. -/
def OmnibusEngineM.loaded_core (e : OmnibusEngineM) : Bool :=
  e.rh_resolver && e.rh_ast.isSome && e.rh_caches && e.rh_global

/-- The message `format!("cannot call '{op}' without a compiled core")`. -/
def cannotCallMsg (op : String) : String :=
  "cannot call " ++ squote ++ op ++ squote ++ " without a compiled core"

/-- The message `format!("failed to run 'handle' on rhai script: {err}")`. -/
def runHandleFailMsg (err : String) : String :=
  "failed to run " ++ squote ++ "handle" ++ squote ++ " on rhai script: " ++ err

/-- The `for _ in 0..1000` loop body of `run_handle`: each iteration
calls the script function named `"simple"` with an empty argument list,
and the first error aborts the loop wrapped in the run-handle message. -/
def runHandleLoop (rt : ScriptRT) (lib : ProgramLib) : Nat → Except StdErr Unit
  | 0 => Except.ok ()
  | Nat.succ n =>
    match call_fn_raw_raw rt lib "simple" 0 with
    | Except.error err => Except.error (StdErr.genericErr (runHandleFailMsg err))
    | Except.ok _ => runHandleLoop rt lib n

/-- `OmnibusEngine::run_handle`: rejects when `loaded_core` is false,
otherwise runs the 1000-iteration loop calling `"simple"`. The
`HandleResponse::default()` success payload is modelled as `Unit`. -/
def OmnibusEngineM.run_handle (rt : ScriptRT) (e : OmnibusEngineM) :
    Except StdErr Unit :=
  if ¬ e.loaded_core then
    Except.error (StdErr.genericErr (cannotCallMsg "run_handle"))
  else
    match e.rh_ast with
    | some lib => runHandleLoop rt lib 1000
    | none => Except.error (StdErr.genericErr (cannotCallMsg "run_handle"))

/-- `OmnibusEngine::run_deploy`: the source body is only
`Ok(HandleResponse::default())` — no state check and no script call. -/
def OmnibusEngineM.run_deploy (_ : OmnibusEngineM) : Except StdErr Unit :=
  Except.ok ()

/-- The message `format!("core or script is invalid, missing 'fn {name}()' endpoint")`. -/
def endpointMissingMsg (name : String) : String :=
  "core or script is invalid, missing " ++ squote ++ "fn " ++ name ++ "()" ++
    squote ++ " endpoint"

/-- `validate_endpoint_method`: `lib.get_script_fn(name, 0)` must find
a zero-argument script function of that name. -/
def validate_endpoint_method (lib : ProgramLib) (name : String) :
    Except StdErr Unit :=
  if lib.contains (name, 0) then Except.ok ()
  else Except.error (StdErr.genericErr (endpointMissingMsg name))

/-- `ENDPOINT_METHODS`. -/
def ENDPOINT_METHODS : List String := ["deploy", "handle", "query"]

/-- The `for endpoint_fname in ENDPOINT_METHODS` loop of `validate`,
short-circuiting at the first missing endpoint. -/
def validateEndpoints (lib : ProgramLib) : List String → Except StdErr Unit
  | [] => Except.ok ()
  | n :: rest =>
    match validate_endpoint_method lib n with
    | Except.error e => Except.error e
    | Except.ok _ => validateEndpoints lib rest

/-- `OmnibusEngine::validate`: rejects when `loaded_core` is false,
otherwise checks the three endpoints. The engine value is returned
unchanged alongside the result: the source method takes `&mut self` but
assigns no field. -/
def OmnibusEngineM.validate (e : OmnibusEngineM) :
    Except StdErr Unit × OmnibusEngineM :=
  if ¬ e.loaded_core then
    (Except.error (StdErr.genericErr (cannotCallMsg "validate")), e)
  else
    match e.rh_ast with
    | some lib => (validateEndpoints lib ENDPOINT_METHODS, e)
    | none => (Except.error (StdErr.genericErr (cannotCallMsg "validate")), e)

/-! ## Storage host functions (core/src/engine.rs) -/

/-- The message of `Err("key path is required.")`. -/
def keyPathRequiredMsg : String := "key path is required."

/-- The message of `Err("keys must all be String.")`. -/
def keysMustBeStringMsg : String := "keys must all be String."

/-- The `try_for_each` loop of `expand_key_path`: a `.` is pushed
before a segment only when the buffer is non-empty so far, then the
segment must read as a string. -/
def expandKeyPathLoop : String → List DValue → Except String String
  | buf, [] => Except.ok buf
  | buf, k :: rest =>
    let buf2 := if ¬ buf.isEmpty then buf ++ "." else buf
    match k with
    | DValue.str s => expandKeyPathLoop (buf2 ++ s) rest
    | _ => Except.error keysMustBeStringMsg

/-- `expand_key_path`: empty key path is an error, otherwise the loop
builds the joined key. -/
def expand_key_path (key_path : List DValue) : Except String String :=
  if key_path.isEmpty then Except.error keyPathRequiredMsg
  else expandKeyPathLoop "" key_path

/-- The backing key-value store, newest write first. -/
abbrev Store : Type := List (String × String)

/-- `storage.set(key, value)`. -/
def storeSet (s : Store) (k v : String) : Store := (k, v) :: s

/-- The message `format!("error during storage set: {err}")`. -/
def storageSetErrMsg (err : String) : String :=
  "error during storage set: " ++ err

/-- The array-keyed `storage_set` host function registered in
`register_functions`: expand the key path, failing the call (and
writing nothing) on error, else write the value under the joined key. -/
def storage_set_arr (store : Store) (key_path : List DValue) (val : String) :
    Except String Unit × Store :=
  match expand_key_path key_path with
  | Except.error err => (Except.error (storageSetErrMsg err), store)
  | Except.ok key => (Except.ok (), storeSet store key val)

/-! ## Derived notions used in the claim statements -/

/-- The string segments of an array-valued key path: `some` of them
when every element is a string, `none` when some element is not. -/
def strSegs? : List DValue → Option (List String)
  | [] => some []
  | DValue.str s :: rest => (strSegs? rest).map (fun l => s :: l)
  | _ :: _ => none

/-- Joining a list of segments with a `.` between adjacent segments. -/
def dotJoin : List String → String
  | [] => ""
  | [s] => s
  | s :: rest => s ++ "." ++ dotJoin rest

/-! ## Concrete instances used by the claim theorems and witnesses -/

/-- A resolver with the default extension `rhai`, caching enabled, no
base path and no archive loaded. -/
def rhaiResolver : ZipModuleResolverM :=
  { zip := none, basePath := none, extension := "rhai", cache_enabled := true }

/-- A resolver over a one-file archive holding `foo.rhai`. -/
def fooResolver : ZipModuleResolverM :=
  { zip := some { files := [("foo.rhai", FileEntry.readable "fn simple(){}")] },
    basePath := none, extension := "rhai", cache_enabled := true }

/-- An external engine for which every source compiles and evaluates. -/
def happyEngine : ExtEngine := { compileOk := fun _ => true, evalOk := fun _ => true }

/-- The initial resolver state: empty cache, no module instances
allocated, no archive reads performed. -/
def st0 : RState := { cache := [], fresh := 0, reads := 0 }

/-- A merged program defining exactly the three zero-argument endpoint
functions. -/
def threeEndpointLib : ProgramLib := [("deploy", 0), ("handle", 0), ("query", 0)]

/-- A warmed engine: resolver, merged AST, caches and global runtime
state all present, the program defining the three endpoints. -/
def warmEngine : OmnibusEngineM :=
  { rh_resolver := true, rh_ast := some threeEndpointLib,
    rh_caches := true, rh_global := true }

/-- An engine on which `load_core` never ran. -/
def unloadedEngine : OmnibusEngineM :=
  { rh_resolver := false, rh_ast := none, rh_caches := false, rh_global := false }

/-- A script runtime in which every defined function runs successfully. -/
def okRT : ScriptRT := { runFn := fun _ => Except.ok () }

/-- A config document whose cortex name and version keys both hold the
empty string. -/
def emptyStrCfg : ConfigM :=
  ConfigM.new [("cortex", DValue.map [("name", DValue.str ""),
                                      ("version", DValue.str "")])]

/-- A config document with a cortex name but no version key. -/
def noVersionCfg : RMap := [("cortex", DValue.map [("name", DValue.str "demo")])]

/-! ## Supporting lemmas -/

/-- The data field of a freshly constructed config. -/
theorem ConfigM.new_data (data : RMap) : (ConfigM.new data).data = data := rfl

/-- The memo table of a freshly constructed config is empty. -/
theorem ConfigM.new_cache (data : RMap) : (ConfigM.new data).cache = [] := rfl

/-- The raw dot-path walk reads only the `data` field, never the memo
table. -/
theorem getRaw_cacheIrrel (data : RMap) (cache : List (String × DValue))
    (key : String) :
    ConfigM.getRaw ⟨data, cache⟩ key = ConfigM.getRaw (ConfigM.new data) key := rfl

/-- The source loop of `_get` agrees with the spec-level nested-map
walk, with `none` read as `Dynamic::UNIT`. -/
theorem getWalk_eq_specDotLookup (ks : List String) :
    ∀ v, ConfigM.getWalk v ks = (specDotLookup v ks).getD DValue.unit := by
  induction ks with
  | nil => intro v; rfl
  | cons k rest ih =>
    intro v
    cases v <;> simp [ConfigM.getWalk, specDotLookup]
    case map m =>
      cases h : assocFind m k with
      | none => simp [h]
      | some v2 => simp [h, ih]

/-- Validation of a fresh config document is decided by whether the two
required keys hold string values. -/
theorem validateNew_eq (data : RMap) :
    CortexConfig.validate (ConfigM.new data) =
      (if ((ConfigM.new data).getRaw "cortex.name").isStr then
        (if ((ConfigM.new data).getRaw "cortex.version").isStr then
          Except.ok ⟨data, [("cortex.version", (ConfigM.new data).getRaw "cortex.version"),
                            ("cortex.name", (ConfigM.new data).getRaw "cortex.name")]⟩
         else Except.error (StdErr.genericErr (missingKeyMsg "cortex.version")))
       else Except.error (StdErr.genericErr (missingKeyMsg "cortex.name"))) := by
  have hne : (("cortex.name" : String) == "cortex.version") = false := by decide
  cases hvn : (ConfigM.new data).getRaw "cortex.name" <;>
    cases hvv : (ConfigM.new data).getRaw "cortex.version" <;>
      simp [CortexConfig.validate, REQ_STR_KEYS, validateKeys, ConfigM.get_str,
            ConfigM.get, assocFind, hne, ConfigM.new_data, ConfigM.new_cache,
            getRaw_cacheIrrel, hvn, hvv, DValue.isStr]

/-- Appending a dot and a suffix never produces the empty string. -/
theorem append_dot_isEmpty (b s : String) : (b ++ "." ++ s).isEmpty = false := by
  rw [Bool.eq_false_iff]
  intro h
  have h2 := (String.isEmpty_iff _).mp h
  have hd := congrArg String.data h2
  simp [String.data_append] at hd

/-- A dotted head fuses with the join of the remaining segments. -/
theorem dotJoin_append_dot (a b : String) (l : List String) :
    dotJoin ((a ++ "." ++ b) :: l) = a ++ "." ++ dotJoin (b :: l) := by
  cases l with
  | nil => rfl
  | cons x xs => simp [dotJoin, String.append_assoc]

/-- The empty string is a left identity of string append. -/
theorem empty_append_str (s : String) : "" ++ s = s := by
  cases s
  rfl

/-- The key-path loop on a non-empty buffer and all-string segments
produces the plain dot-join of buffer and segments. -/
theorem expandLoop_str_ne (l : List DValue) :
    ∀ segs buf, strSegs? l = some segs → buf.isEmpty = false →
      expandKeyPathLoop buf l = Except.ok (dotJoin (buf :: segs)) := by
  induction l with
  | nil =>
    intro segs buf h _
    simp [strSegs?] at h
    subst h
    rfl
  | cons k rest ih =>
    intro segs buf h hb
    cases k with
    | str s =>
      cases hr : strSegs? rest with
      | none => simp [strSegs?, hr] at h
      | some segs2 =>
        simp [strSegs?, hr] at h
        subst h
        unfold expandKeyPathLoop
        simp only [hb, Bool.false_eq_true, not_false_eq_true, if_true]
        rw [ih segs2 (buf ++ "." ++ s) hr (append_dot_isEmpty buf s)]
        rw [dotJoin_append_dot]
        simp [dotJoin]
    | unit => simp [strSegs?] at h
    | int n => simp [strSegs?] at h
    | bool b2 => simp [strSegs?] at h
    | array xs => simp [strSegs?] at h
    | map m => simp [strSegs?] at h

/-- The key-path loop on an empty buffer and all-string segments
produces the dot-join of the segments with leading empty segments
dropped: while everything emitted so far is empty, no separator is
inserted. -/
theorem expandLoop_str_empty (l : List DValue) :
    ∀ segs, strSegs? l = some segs →
      expandKeyPathLoop "" l = Except.ok (dotJoin (segs.dropWhile String.isEmpty)) := by
  induction l with
  | nil =>
    intro segs h
    simp [strSegs?] at h
    subst h
    rfl
  | cons k rest ih =>
    intro segs h
    cases k with
    | str s =>
      cases hr : strSegs? rest with
      | none => simp [strSegs?, hr] at h
      | some segs2 =>
        simp [strSegs?, hr] at h
        subst h
        unfold expandKeyPathLoop
        have hb : ("" : String).isEmpty = true := rfl
        simp only [hb, not_true, if_false]
        rw [empty_append_str]
        cases he : s.isEmpty with
        | true =>
          have hs : s = "" := (String.isEmpty_iff s).mp he
          subst hs
          rw [List.dropWhile_cons]
          simp only [he, if_true]
          exact ih segs2 hr
        | false =>
          rw [List.dropWhile_cons]
          simp only [he, Bool.false_eq_true, if_false]
          exact expandLoop_str_ne rest segs2 s hr he
    | unit => simp [strSegs?] at h
    | int n => simp [strSegs?] at h
    | bool b2 => simp [strSegs?] at h
    | array xs => simp [strSegs?] at h
    | map m => simp [strSegs?] at h

/-- The key-path loop rejects a segment list containing a non-string,
whatever has been accumulated. -/
theorem expandLoop_nonstr (l : List DValue) :
    ∀ buf, strSegs? l = none →
      expandKeyPathLoop buf l = Except.error keysMustBeStringMsg := by
  induction l with
  | nil => intro buf h; simp [strSegs?] at h
  | cons k rest ih =>
    intro buf h
    cases k with
    | str s =>
      simp only [strSegs?, Option.map_eq_none'] at h
      unfold expandKeyPathLoop
      exact ih _ h
    | unit => rfl
    | int n => rfl
    | bool b2 => rfl
    | array xs => rfl
    | map m => rfl

/-! ## Claim theorems -/

/-- C1. The claim says `run_handle()` invokes the zero-argument script
function named `handle` on a warmed engine (and `run_deploy()` the
function named `deploy`). The code, against its own `ENDPOINT_FN_HANDLE`
constant and `validate` contract, invokes the function named `simple`
1000 times, so on a warmed engine whose program defines exactly the
three endpoints the call fails with a function-not-found error even
though `handle()` exists; and `run_deploy` is a stub that performs no
invocation and succeeds even on an engine that was never loaded. -/
theorem c1_run_handle_calls_simple_not_handle :
    warmEngine.loaded_core = true
  ∧ threeEndpointLib.contains ("handle", 0) = true
  ∧ OmnibusEngineM.run_handle okRT warmEngine =
      Except.error (StdErr.genericErr (runHandleFailMsg (errFnNotFound "simple")))
  ∧ unloadedEngine.loaded_core = false
  ∧ OmnibusEngineM.run_deploy unloadedEngine = Except.ok () :=
  ⟨rfl, by decide, rfl, rfl, rfl⟩

/-- C2 counterexample. The claim says validation fails when a required
key holds an empty string; on the document whose `cortex.name` and
`cortex.version` are both the empty string, `CortexConfig::validate`
succeeds, because `get_str` only checks that the value is a string. -/
theorem c2_empty_string_passes_validate :
    (emptyStrCfg.getRaw "cortex.name" = DValue.str ""
      ∧ emptyStrCfg.getRaw "cortex.version" = DValue.str "")
  ∧ exceptOk (CortexConfig.validate emptyStrCfg) = true :=
  ⟨⟨rfl, rfl⟩, rfl⟩

/-- C2 amended. For every config document, validation succeeds exactly
when `cortex.name` and `cortex.version` both hold string values (empty
strings included — emptiness is not checked), and a failure is a
missing-key error naming the offending dotted key. -/
theorem c2_validate_string_typed_keys (data : RMap) :
    (exceptOk (CortexConfig.validate (ConfigM.new data)) = true ↔
      (((ConfigM.new data).getRaw "cortex.name").isStr = true
        ∧ ((ConfigM.new data).getRaw "cortex.version").isStr = true))
  ∧ (∀ msg, CortexConfig.validate (ConfigM.new data) =
        Except.error (StdErr.genericErr msg) →
      (msg = missingKeyMsg "cortex.name"
          ∧ ((ConfigM.new data).getRaw "cortex.name").isStr = false)
      ∨ (msg = missingKeyMsg "cortex.version"
          ∧ ((ConfigM.new data).getRaw "cortex.version").isStr = false)) := by
  cases hn : ((ConfigM.new data).getRaw "cortex.name").isStr <;>
    cases hv : ((ConfigM.new data).getRaw "cortex.version").isStr <;>
      simp [validateNew_eq, hn, hv, exceptOk]

/-- C2 witness: a document lacking `cortex.version` fails validation
with the missing-key error naming `cortex.version`. -/
theorem c2_validate_string_typed_keys_witness :
    (missingKeyMsg "cortex.version" = missingKeyMsg "cortex.name"
        ∧ ((ConfigM.new noVersionCfg).getRaw "cortex.name").isStr = false)
    ∨ (missingKeyMsg "cortex.version" = missingKeyMsg "cortex.version"
        ∧ ((ConfigM.new noVersionCfg).getRaw "cortex.version").isStr = false) :=
  (c2_validate_string_typed_keys noVersionCfg).2 (missingKeyMsg "cortex.version") rfl

/-- C5. For every loaded config and every path string, a second `get`
of the same path returns the same value, leaves the memo table (hence
its size) unchanged, and performs no recomputation against the document
(the flag recording that `_get` ran is false). -/
theorem c5_get_memoized_idempotent (c : ConfigM) (key : String) :
    (((c.get key).2.1).get key).1 = (c.get key).1
  ∧ (((c.get key).2.1).get key).2.1 = (c.get key).2.1
  ∧ (((c.get key).2.1).get key).2.2 = false := by
  unfold ConfigM.get
  cases h : assocFind c.cache key with
  | some v => simp [h]
  | none => simp [h, assocFind]

/-- C6. For every document and path string, the raw dot-path lookup
equals the spec-level walk with `none` read as "no value": the empty
path, a missing key at any segment and a non-map value before the final
segment all give "no value"; the function is total (never an error) and
otherwise returns exactly the value reached by the full path (never a
partial result). -/
theorem c6_dot_lookup_total_no_partial (c : ConfigM) (key : String) :
    c.getRaw key = (specGet c key).getD DValue.unit := by
  unfold ConfigM.getRaw specGet
  cases h : key.isEmpty with
  | true => simp [h]
  | false =>
    simp only [h, Bool.false_eq_true, if_false]
    cases hs : splitDots key with
    | nil => simp
    | cons k0 rest =>
      simp only [specDotLookup]
      cases hf : assocFind c.data k0 with
      | none => simp [hf]
      | some v => simp [hf, getWalk_eq_specDotLookup]

/-- C7. With configured extension `rhai` and no base path, the import
paths `foo`, `foo.txt` and `foo.rhai` all canonicalize to the same
resolved file path `foo.rhai` — the configured extension replaces
whatever extension the input carried — and hence to the same cache key
used by `impl_resolve`. -/
theorem c7_extension_forcing :
    rhaiResolver.get_file_path "foo" none none = "foo.rhai"
  ∧ rhaiResolver.get_file_path "foo.txt" none none = "foo.rhai"
  ∧ rhaiResolver.get_file_path "foo.rhai" none none = "foo.rhai"
  ∧ rhaiResolver.resolvedPath none none "foo" =
      rhaiResolver.resolvedPath none none "foo.txt"
  ∧ rhaiResolver.resolvedPath none none "foo.txt" =
      rhaiResolver.resolvedPath none none "foo.rhai" :=
  ⟨rfl, rfl, rfl, rfl, rfl⟩

/-- C8. For every warmed engine, `validate` succeeds exactly when the
merged program defines a zero-argument script function for each of
`deploy`, `handle` and `query`; any failure is an error naming a
missing endpoint; and the engine state is unchanged, so a second call
returns the same result. -/
theorem c8_validate_endpoints (e : OmnibusEngineM) (lib : ProgramLib)
    (hl : e.loaded_core = true) (ha : e.rh_ast = some lib) :
    ((e.validate).1 = Except.ok () ↔
      (("deploy", 0) ∈ lib ∧ ("handle", 0) ∈ lib ∧ ("query", 0) ∈ lib))
  ∧ (∀ msg, (e.validate).1 = Except.error (StdErr.genericErr msg) →
      ∃ n, n ∈ ENDPOINT_METHODS ∧ (n, 0) ∉ lib ∧ msg = endpointMissingMsg n)
  ∧ (e.validate).2 = e
  ∧ ((e.validate).2).validate = e.validate := by
  have hv : e.validate = (validateEndpoints lib ENDPOINT_METHODS, e) := by
    simp [OmnibusEngineM.validate, hl, ha]
  refine ⟨?_, ?_, by rw [hv], by simp only [hv]⟩
  · rw [hv]
    by_cases h1 : ("deploy", 0) ∈ lib <;> by_cases h2 : ("handle", 0) ∈ lib <;>
      by_cases h3 : ("query", 0) ∈ lib <;>
        simp [validateEndpoints, validate_endpoint_method, ENDPOINT_METHODS, h1, h2, h3]
  · intro msg hmsg
    rw [hv] at hmsg
    by_cases h1 : ("deploy", 0) ∈ lib <;> by_cases h2 : ("handle", 0) ∈ lib <;>
      by_cases h3 : ("query", 0) ∈ lib <;>
        simp [validateEndpoints, validate_endpoint_method, ENDPOINT_METHODS,
              h1, h2, h3] at hmsg
    · exact ⟨"query", by simp [ENDPOINT_METHODS], h3, hmsg.symm⟩
    · exact ⟨"handle", by simp [ENDPOINT_METHODS], h2, hmsg.symm⟩
    · exact ⟨"handle", by simp [ENDPOINT_METHODS], h2, hmsg.symm⟩
    · exact ⟨"deploy", by simp [ENDPOINT_METHODS], h1, hmsg.symm⟩
    · exact ⟨"deploy", by simp [ENDPOINT_METHODS], h1, hmsg.symm⟩
    · exact ⟨"deploy", by simp [ENDPOINT_METHODS], h1, hmsg.symm⟩
    · exact ⟨"deploy", by simp [ENDPOINT_METHODS], h1, hmsg.symm⟩

/-- C8 witness: the warmed engine whose program defines all three
zero-argument endpoints passes validation. -/
theorem c8_validate_endpoints_witness :
    (warmEngine.validate).1 = Except.ok () :=
  ((c8_validate_endpoints warmEngine threeEndpointLib rfl rfl).1).mpr
    ⟨by decide, by decide, by decide⟩

/-- C9 counterexample. The claim says the written key is the segments
joined with `.` in order; for the all-string segment list `["", "a"]`
the code writes under `a`, not under `.a` as a plain dot-join would
give: no separator is emitted while the accumulated buffer is empty. -/
theorem c9_empty_segment_join_counterexample :
    storage_set_arr [] [DValue.str "", DValue.str "a"] "v" =
      (Except.ok (), [("a", "v")])
  ∧ ("a" : String) ≠ ".a" := ⟨rfl, by decide⟩

/-- C9 amended. For the array-keyed `storage_set`: a non-empty
all-string segment list writes the value under the dot-join of the
segments after dropping leading empty segments; an empty list or a
non-string segment fails the call with the corresponding error and
leaves the store untouched. -/
theorem c9_storage_set_key_join (store : Store) (key_path : List DValue)
    (val : String) :
    (∀ segs, strSegs? key_path = some segs → key_path ≠ [] →
      storage_set_arr store key_path val =
        (Except.ok (), storeSet store (dotJoin (segs.dropWhile String.isEmpty)) val))
  ∧ (key_path = [] →
      storage_set_arr store key_path val =
        (Except.error (storageSetErrMsg keyPathRequiredMsg), store))
  ∧ (strSegs? key_path = none →
      storage_set_arr store key_path val =
        (Except.error (storageSetErrMsg keysMustBeStringMsg), store)) := by
  refine ⟨?_, ?_, ?_⟩
  · intro segs hs hne
    cases key_path with
    | nil => exact absurd rfl hne
    | cons k rest =>
      unfold storage_set_arr expand_key_path
      rw [expandLoop_str_empty (k :: rest) segs hs]
      simp [List.isEmpty_cons]
  · intro h
    subst h
    rfl
  · intro hn
    cases key_path with
    | nil => simp [strSegs?] at hn
    | cons k rest =>
      unfold storage_set_arr expand_key_path
      rw [expandLoop_nonstr (k :: rest) "" hn]
      simp [List.isEmpty_cons]

/-- C9 witness: the segments `["a", "b"]` write the value under key
`a.b`. -/
theorem c9_storage_set_key_join_witness :
    storage_set_arr [] [DValue.str "a", DValue.str "b"] "v" =
      (Except.ok (), [("a.b", "v")]) :=
  (c9_storage_set_key_join [] [DValue.str "a", DValue.str "b"] "v").1
    ["a", "b"] rfl (by simp)

/-- A failing cache-miss resolution leaves the module cache unchanged:
only the read counter may advance. -/
theorem resolveMiss_err_cache (E : ExtEngine) (r : ZipModuleResolverM) (st : RState)
    (path fp : String) (err : EvalAltErr) (st2 : RState)
    (h : r.resolveMiss E st path fp = (Except.error err, st2)) :
    st2.cache = st.cache := by
  obtain ⟨sc, sf, sr⟩ := st
  unfold ZipModuleResolverM.resolveMiss ZipModuleResolverM.get_file at h
  cases hz : r.zip with
  | none =>
    rw [hz] at h
    simp at h
    rw [← h.2]
  | some z =>
    rw [hz] at h
    cases hf : assocFind z.files fp with
    | none =>
      simp [hf] at h
      rw [← h.2]
    | some fe =>
      cases fe with
      | readable s =>
        simp [hf] at h
        cases hc : E.compileOk s with
        | false =>
          simp [hc] at h
          rw [← h.2]
        | true =>
          cases he : E.evalOk s with
          | false =>
            simp [hc, he] at h
            rw [← h.2]
          | true => simp [hc, he] at h
      | unreadable =>
        simp [hf] at h
        rw [← h.2]

/-- A successful cache-miss resolution happens only with a loaded
archive holding readable source that compiles and evaluates; it returns
the freshly allocated module instance, counts one archive read, and
inserts into the cache exactly when caching is enabled. -/
theorem resolveMiss_ok_char (E : ExtEngine) (r : ZipModuleResolverM) (st : RState)
    (path fp : String) (m : Nat) (st2 : RState)
    (h : r.resolveMiss E st path fp = (Except.ok m, st2)) :
    ∃ z s, r.zip = some z ∧ assocFind z.files fp = some (FileEntry.readable s)
      ∧ E.compileOk s = true ∧ E.evalOk s = true ∧ m = st.fresh
      ∧ st2 = (if r.cache_enabled then
                RState.mk ((fp, m) :: st.cache) (st.fresh + 1) (st.reads + 1)
               else RState.mk st.cache (st.fresh + 1) (st.reads + 1)) := by
  obtain ⟨sc, sf, sr⟩ := st
  unfold ZipModuleResolverM.resolveMiss ZipModuleResolverM.get_file at h
  cases hz : r.zip with
  | none =>
    rw [hz] at h
    simp at h
  | some z =>
    rw [hz] at h
    cases hf : assocFind z.files fp with
    | none => simp [hf] at h
    | some fe =>
      cases fe with
      | readable s =>
        simp [hf] at h
        cases hc : E.compileOk s with
        | false => simp [hc] at h
        | true =>
          cases he : E.evalOk s with
          | false => simp [hc, he] at h
          | true =>
            simp [hc, he] at h
            obtain ⟨h1, h2⟩ := h
            subst h1
            refine ⟨z, s, rfl, hf, hc, he, rfl, ?_⟩
            cases hce : r.cache_enabled with
            | true =>
              rw [hce] at h2
              simpa using h2.symm
            | false =>
              rw [hce] at h2
              simpa using h2.symm
      | unreadable => simp [hf] at h

/-- Evaluating the cache-miss body under known archive and oracle
facts. -/
theorem resolveMiss_eval (E : ExtEngine) (r : ZipModuleResolverM) (st : RState)
    (path fp : String) (z : ZipArchiveM) (s : String)
    (hz : r.zip = some z) (hf : assocFind z.files fp = some (FileEntry.readable s))
    (hc : E.compileOk s = true) (he : E.evalOk s = true) :
    r.resolveMiss E st path fp =
      (Except.ok st.fresh,
       if r.cache_enabled then
         RState.mk ((fp, st.fresh) :: st.cache) (st.fresh + 1) (st.reads + 1)
       else RState.mk st.cache (st.fresh + 1) (st.reads + 1)) := by
  obtain ⟨sc, sf, sr⟩ := st
  unfold ZipModuleResolverM.resolveMiss ZipModuleResolverM.get_file
  rw [hz]
  simp [hf, hc, he]

/-- With no usable cache entry, `impl_resolve` runs the cache-miss
body. -/
theorem impl_resolve_miss_eq (E : ExtEngine) (r : ZipModuleResolverM) (st : RState)
    (gs src : Option String) (path : String)
    (hmiss : (if r.cache_enabled then
        assocFind st.cache (r.resolvedPath gs src path) else none) = none) :
    r.impl_resolve E st gs src path =
      r.resolveMiss E st path (r.resolvedPath gs src path) := by
  simp only [ZipModuleResolverM.impl_resolve, hmiss]

/-- With caching enabled and a cache hit, `impl_resolve` returns the
cached instance verbatim and leaves the state — in particular the
archive read counter — untouched. -/
theorem impl_resolve_hit (E : ExtEngine) (r : ZipModuleResolverM) (st : RState)
    (gs src : Option String) (path : String) (m : Nat)
    (hc : r.cache_enabled = true)
    (hhit : assocFind st.cache (r.resolvedPath gs src path) = some m) :
    r.impl_resolve E st gs src path = (Except.ok m, st) := by
  simp only [ZipModuleResolverM.impl_resolve, hc, if_true, hhit]


/-- C3. With caching enabled, after a first resolution of a path (from
a state with no cache entry for it) succeeds with module `m`: resolving
the same path again under the same requesting source context returns
the same shared instance `m` with the state — including the archive
read counter — unchanged; and after `clear_cache()`, the next
resolution re-reads the archive (one more read) and re-compiles,
producing a fresh module instance distinct from `m`. -/
theorem c3_cache_identity_and_clear (E : ExtEngine) (r : ZipModuleResolverM)
    (stA st1 : RState) (gs src : Option String) (path : String) (m : Nat)
    (hc : r.cache_enabled = true)
    (hmiss : assocFind stA.cache (r.resolvedPath gs src path) = none)
    (h1 : r.impl_resolve E stA gs src path = (Except.ok m, st1)) :
    r.impl_resolve E st1 gs src path = (Except.ok m, st1)
  ∧ (r.impl_resolve E st1.clear_cache gs src path).1 = Except.ok st1.fresh
  ∧ (r.impl_resolve E st1.clear_cache gs src path).2.reads = st1.reads + 1
  ∧ st1.fresh ≠ m := by
  have hm0 : (if r.cache_enabled then
      assocFind stA.cache (r.resolvedPath gs src path) else none) = none := by
    simp [hc, hmiss]
  rw [impl_resolve_miss_eq E r stA gs src path hm0] at h1
  obtain ⟨z, s, hz, hf, hco, he, hm, hst1⟩ :=
    resolveMiss_ok_char E r stA path (r.resolvedPath gs src path) m st1 h1
  rw [hc] at hst1
  simp only [if_true] at hst1
  subst hm
  subst hst1
  refine ⟨?_, ?_, ?_, ?_⟩
  · apply impl_resolve_hit E r _ gs src path stA.fresh hc
    simp [assocFind]
  · have hm1 : (if r.cache_enabled then
        assocFind (RState.clear_cache
          (RState.mk ((r.resolvedPath gs src path, stA.fresh) :: stA.cache)
            (stA.fresh + 1) (stA.reads + 1))).cache
          (r.resolvedPath gs src path) else none) = none := by
      simp [hc, RState.clear_cache, assocFind]
    rw [impl_resolve_miss_eq E r _ gs src path hm1]
    rw [resolveMiss_eval E r _ path (r.resolvedPath gs src path) z s hz hf hco he]
    simp [hc, RState.clear_cache]
  · have hm1 : (if r.cache_enabled then
        assocFind (RState.clear_cache
          (RState.mk ((r.resolvedPath gs src path, stA.fresh) :: stA.cache)
            (stA.fresh + 1) (stA.reads + 1))).cache
          (r.resolvedPath gs src path) else none) = none := by
      simp [hc, RState.clear_cache, assocFind]
    rw [impl_resolve_miss_eq E r _ gs src path hm1]
    rw [resolveMiss_eval E r _ path (r.resolvedPath gs src path) z s hz hf hco he]
    simp [hc, RState.clear_cache]
  · exact Nat.succ_ne_self stA.fresh

/-- C4. Every failing resolution — file absent, unreadable, compile
error or module evaluation error — leaves the module cache unchanged:
an entry is inserted only on success. -/
theorem c4_failed_resolution_not_cached (E : ExtEngine) (r : ZipModuleResolverM)
    (st st2 : RState) (gs src : Option String) (path : String) (err : EvalAltErr)
    (h : r.impl_resolve E st gs src path = (Except.error err, st2)) :
    st2.cache = st.cache := by
  simp only [ZipModuleResolverM.impl_resolve] at h
  cases hcc : (if r.cache_enabled then
      assocFind st.cache (r.resolvedPath gs src path) else none) with
  | some m =>
    rw [hcc] at h
    simp at h
  | none =>
    rw [hcc] at h
    exact resolveMiss_err_cache E r st path (r.resolvedPath gs src path) err st2 h

/-- C10. The cache-bypassing `resolve_ast` is not total: whenever the
resolved file is absent from the archive (or no archive is loaded), the
`.ok().unwrap()` on the failed lookup panics (modelled as `none`), and
no execution ever returns the module-not-found error result for the
requested path. -/
theorem c10_resolve_ast_panics_on_missing (E : ExtEngine) (r : ZipModuleResolverM)
    (st : RState) (sp : Option String) (path : String) :
    (r.archiveHas (r.get_file_path path sp none) = false →
      r.resolve_ast E st sp path = none)
  ∧ (∀ out, r.resolve_ast E st sp path = some out →
      out.1 ≠ Except.error (EvalAltErr.errorModuleNotFound path)) := by
  constructor
  · intro h
    unfold ZipModuleResolverM.archiveHas at h
    unfold ZipModuleResolverM.resolve_ast ZipModuleResolverM.get_file
    cases hz : r.zip with
    | none => simp
    | some z =>
      rw [hz] at h
      simp only [Option.isSome] at h
      cases hf : assocFind z.files (r.get_file_path path sp none) with
      | none => simp [hf]
      | some fe => rw [hf] at h; simp at h
  · intro out hout
    unfold ZipModuleResolverM.resolve_ast ZipModuleResolverM.get_file at hout
    cases hz : r.zip with
    | none => rw [hz] at hout; simp at hout
    | some z =>
      rw [hz] at hout
      cases hf : assocFind z.files (r.get_file_path path sp none) with
      | none => simp [hf] at hout
      | some fe =>
        cases fe with
        | readable s =>
          simp only [hf] at hout
          cases hco : E.compileOk s with
          | true =>
            simp [hco] at hout
            rw [← hout]
            simp
          | false =>
            simp [hco] at hout
            rw [← hout]
            simp
        | unreadable => simp [hf] at hout

/-- C3 witness: a concrete one-file archive, resolved once, hits the
cache the second time and recompiles after a cache clear. -/
theorem c3_cache_identity_and_clear_witness :
    fooResolver.impl_resolve happyEngine
      (RState.mk [("foo.rhai", 0)] 1 1) none none "foo" =
        (Except.ok 0, RState.mk [("foo.rhai", 0)] 1 1)
  ∧ (fooResolver.impl_resolve happyEngine
      (RState.mk [("foo.rhai", 0)] 1 1).clear_cache none none "foo").1 =
        Except.ok (RState.mk [("foo.rhai", 0)] 1 1).fresh
  ∧ (fooResolver.impl_resolve happyEngine
      (RState.mk [("foo.rhai", 0)] 1 1).clear_cache none none "foo").2.reads =
        (RState.mk [("foo.rhai", 0)] 1 1).reads + 1
  ∧ (RState.mk [("foo.rhai", 0)] 1 1).fresh ≠ 0 :=
  c3_cache_identity_and_clear happyEngine fooResolver st0
    (RState.mk [("foo.rhai", 0)] 1 1) none none "foo" 0 rfl rfl rfl

/-- C4 witness: resolving a path missing from a concrete archive fails
and leaves the cache empty. -/
theorem c4_failed_resolution_not_cached_witness :
    (RState.mk [] 0 1).cache = st0.cache :=
  c4_failed_resolution_not_cached happyEngine fooResolver st0
    (RState.mk [] 0 1) none none "bar" (EvalAltErr.errorModuleNotFound "bar") rfl

/-- C10 witness: with no archive loaded, `resolve_ast` panics. -/
theorem c10_resolve_ast_panics_on_missing_witness :
    rhaiResolver.resolve_ast happyEngine st0 none "foo" = none :=
  (c10_resolve_ast_panics_on_missing happyEngine rhaiResolver st0 none "foo").1 rfl

end Omnibus
